import Mathlib

/-!
Shallow embedding of the goptics/duckq priority queue (src/priority_queue.go).

The repository stores queue items as rows of a DuckDB table

  id INTEGER PRIMARY KEY DEFAULT nextval(seq), data BLOB NOT NULL,
  status TEXT NOT NULL, ack_id TEXT UNIQUE, ack BOOLEAN DEFAULT 0,
  created_at TIMESTAMP, updated_at TIMESTAMP,
  priority INTEGER NOT NULL DEFAULT 0

and every operation runs one transaction (Begin, one or two statements,
Commit, with Rollback on error).  The embedding models:

* a table as a `List Row` (rows in insertion order);
* timestamps as `Nat` values; each operation takes the value of
  `time.Now().UTC()` as an explicit `now` argument;
* payloads (`data BLOB`) as `List Nat` (opaque byte sequences);
* ack ids minted by the external `cuid.New()` as `Option Nat`: cuid
  returns opaque, unique, non-empty strings, modelled as a per-queue
  counter (`ackCtr`); `none` stands for SQL NULL / Go's `""` return;
* transaction outcomes (`Begin`/`Exec`/`Commit` may each fail) as an
  explicit `TxOutcome` argument;
* the `SELECT ... WHERE status = 'pending' ORDER BY priority ASC,
  created_at ASC LIMIT 1` statement nondeterministically: the SQL order
  does not mention `id`, so ties on (priority, created_at) are left
  unspecified by the query.  The selected row is an explicit argument
  `sel : Option Row` constrained by the predicate `selOk`, which states
  exactly what the query guarantees: `none` only if no pending row
  exists, `some r` only if `r` is a pending row of the table minimal
  under (priority ASC, created_at ASC).
-/

/-- The `status` column: 'pending' | 'processing' | 'done'. -/
inductive Status where
  | pending
  | processing
  | done
deriving DecidableEq, Repr

/-- One row of a priority-queue table (schema of `createPriorityTable`). -/
structure Row where
  id : Nat
  data : List Nat
  status : Status
  ack_id : Option Nat
  ack : Bool
  created_at : Nat
  updated_at : Nat
  priority : Int
deriving DecidableEq, Repr

/-- The in-process state of one `PriorityQueue` (embedded `Queue` struct
fields `removeOnComplete` and `closed`) together with the persisted state
it owns: the table rows, the id sequence (`tableName_id_seq`, `START 1`)
and the freshness counter modelling `cuid.New()`. -/
structure PQState where
  table : List Row
  closed : Bool
  removeOnComplete : Bool
  nextId : Nat
  ackCtr : Nat
deriving DecidableEq, Repr

/-- Outcome of the store transaction wrapped around one operation:
`Begin`, the statement `Exec`/`Scan`, or `Commit` may fail. -/
inductive TxOutcome where
  | ok
  | beginFail
  | execFail
  | commitFail
deriving DecidableEq, Repr

/-- `r.status = 'pending'` as a boolean test. -/
def isPending (r : Row) : Bool :=
  r.status = Status.pending

/-- The ordering the dequeue query imposes: `ORDER BY priority ASC,
created_at ASC`.  `prioLe r s` says row `r` sorts no later than `s`. -/
def prioLe (r s : Row) : Bool :=
  decide (r.priority < s.priority ∨
    (r.priority = s.priority ∧ r.created_at ≤ s.created_at))

/-- What `SELECT id, data ... WHERE status = 'pending' ORDER BY priority
ASC, created_at ASC LIMIT 1` guarantees about its result `sel`:
`none` (Go: `sql.ErrNoRows`) only when the table has no pending row, and
`some r` only when `r` is a pending row of the table that every pending
row sorts no earlier than.  Ties on (priority, created_at) are not
resolved by the query, so several rows can be valid selections. -/
def selOk (t : List Row) (sel : Option Row) : Bool :=
  match sel with
  | none => t.all (fun s => !(isPending s))
  | some r =>
      decide (r ∈ t) && isPending r &&
        t.all (fun s => !(isPending s) || prioLe r s)

/-- `PriorityQueue.Enqueue(item, priority)`: guarded by `closed`, then one
transaction inserting `(data, 'pending', now, now, priority)`; `id` comes
from the sequence default, `ack_id` is NULL, `ack` defaults to 0.
Returns `true` iff the transaction committed; any Begin/Exec/Commit
failure rolls back and returns `false`. -/
def Enqueue (st : PQState) (item : List Nat) (priority : Int) (now : Nat)
    (txo : TxOutcome) : Bool × PQState :=
  if st.closed then (false, st)
  else
    match txo with
    | TxOutcome.ok =>
        let r : Row :=
          { id := st.nextId
            data := item
            status := Status.pending
            ack_id := none
            ack := false
            created_at := now
            updated_at := now
            priority := priority }
        (true, { st with table := st.table ++ [r], nextId := st.nextId + 1 })
    | _ => (false, st)

/-- `PriorityQueue.dequeueInternal(withAckId)`: guarded by `closed`; one
transaction that selects the next pending row under (priority ASC,
created_at ASC) and then either marks it processing with a fresh ack id
(`withAckId = true`) or deletes it (`withAckId = false`).  `sel` is the
row the SELECT returned (constrained by `selOk` in the theorems), `txo`
the transaction outcome.  Result mirrors Go's `(any, bool, string)`:
payload (`none` for Go `nil`), found, ack id (`none` for Go `""`). -/
def dequeueInternal (st : PQState) (withAckId : Bool) (now : Nat)
    (sel : Option Row) (txo : TxOutcome) :
    (Option (List Nat) × Bool × Option Nat) × PQState :=
  if st.closed then ((none, false, none), st)
  else if txo = TxOutcome.beginFail then ((none, false, none), st)
  else
    match sel with
    | none => ((none, false, none), st)
    | some r =>
        if txo = TxOutcome.execFail then ((none, false, none), st)
        else if txo = TxOutcome.commitFail then ((none, false, none), st)
        else
          if withAckId then
            let ackId := st.ackCtr
            let t' := st.table.map (fun s =>
              if s.id = r.id then
                { s with
                  status := Status.processing
                  ack_id := some ackId
                  updated_at := now }
              else s)
            ((some r.data, true, some ackId),
              { st with table := t', ackCtr := st.ackCtr + 1 })
          else
            let t' := st.table.filter (fun s => s.id ≠ r.id)
            ((some r.data, true, none), { st with table := t' })

/-- `PriorityQueue.Dequeue()`: `dequeueInternal(false)`, dropping the ack
id from the result. -/
def Dequeue (st : PQState) (now : Nat) (sel : Option Row) (txo : TxOutcome) :
    (Option (List Nat) × Bool) × PQState :=
  let r := dequeueInternal st false now sel txo
  ((r.1.1, r.1.2.1), r.2)

/-- `PriorityQueue.DequeueWithAckId()`: `dequeueInternal(true)`. -/
def DequeueWithAckId (st : PQState) (now : Nat) (sel : Option Row)
    (txo : TxOutcome) : (Option (List Nat) × Bool × Option Nat) × PQState :=
  dequeueInternal st true now sel txo

/-- Modelled from the spec: `RequeueNoAckRows` lives in queue.go, which is
not under src/.  Per the spec, the recovery sweep resets every
`processing` row to `pending`, clears its `ack_id`, and stamps
`updated_at = now`. -/
def RequeueNoAckRows (st : PQState) (now : Nat) : PQState :=
  { st with table := st.table.map (fun r =>
      if r.status = Status.processing then
        { r with
          status := Status.pending
          ack_id := none
          updated_at := now }
      else r) }

/-- A construction option, Go `Option = func(*Queue)`: a mutation of the
queue state applied at construction time. -/
def QueueOption : Type := PQState → PQState

/-- Modelled from the spec: the retain-on-completion construction option
(`{retainOnCompletion: bool}`) is declared in queue.go, which is not under
src/.  Retaining completed rows is the negation of the `removeOnComplete`
field that `newPriorityQueue` initialises. -/
def withRetainOnCompletion (b : Bool) : QueueOption :=
  fun st => { st with removeOnComplete := !b }

/-- Result of a constructor call, distinguishing a value returned to the
caller, an error returned to the caller, and a `panic` that aborts the
process. -/
inductive ConstructResult (α : Type) where
  | ok (value : α)
  | errReturned
  | panicked
deriving DecidableEq, Repr

/-- The registry handle produced by `New` (`queues{client: db}`). -/
structure Registry where
  dbPath : String
deriving DecidableEq, Repr

/-- `New(dbPath)`: `sql.Open("duckdb", dbPath)`; on failure the code calls
`panic(...)` instead of returning the error, otherwise it returns the
registry.  `openFails` stands for the open call's error result. -/
def New (dbPath : String) (openFails : Bool) : ConstructResult Registry :=
  if openFails then ConstructResult.panicked
  else ConstructResult.ok { dbPath := dbPath }

/-- `newPriorityQueue(db, tableName, opts...)`: builds the queue with
`removeOnComplete: true`, applies the options, creates the table
(`createPriorityTable`, whose error is wrapped and returned to the
caller), then runs the recovery sweep.  `persisted`, `seq0` and `ackCtr0`
are the durable table contents, sequence value and cuid state the store
already holds; `tableFail` stands for `createPriorityTable`'s error. -/
def newPriorityQueue (persisted : List Row) (seq0 : Nat) (ackCtr0 : Nat)
    (tableFail : Bool) (opts : List QueueOption) (now : Nat) :
    ConstructResult PQState :=
  let q : PQState :=
    { table := persisted
      closed := false
      removeOnComplete := true
      nextId := seq0
      ackCtr := ackCtr0 }
  let q := opts.foldl (fun a f => f a) q
  if tableFail then ConstructResult.errReturned
  else ConstructResult.ok (RequeueNoAckRows q now)

/-- Modelled from the spec: `newQueue` lives in queue.go, which is not
under src/.  Per the spec it is the base-queue constructor with the same
shape as `newPriorityQueue` but the opposite completion default: "default:
retain, i.e., rows move to done rather than being deleted", so
`removeOnComplete` starts `false`; options are applied on top. -/
def newQueue (persisted : List Row) (seq0 : Nat) (ackCtr0 : Nat)
    (tableFail : Bool) (opts : List QueueOption) (now : Nat) :
    ConstructResult PQState :=
  let q : PQState :=
    { table := persisted
      closed := false
      removeOnComplete := false
      nextId := seq0
      ackCtr := ackCtr0 }
  let q := opts.foldl (fun a f => f a) q
  if tableFail then ConstructResult.errReturned
  else ConstructResult.ok (RequeueNoAckRows q now)

/-! ### The processing/ack_id invariant -/

/-- A row has `status = 'processing'` iff its `ack_id` is non-NULL. -/
def ackInv (t : List Row) : Bool :=
  t.all (fun r => decide (r.status = Status.processing) == r.ack_id.isSome)

/-! ### Concrete sample data used by the scenario theorem and witnesses -/

def Pa : List Nat := [10]

def Pb : List Nat := [11]

def Pc : List Nat := [12]

/-- A freshly constructed, empty priority queue. -/
def emptySt : PQState :=
  { table := [], closed := false, removeOnComplete := true,
    nextId := 1, ackCtr := 0 }

/-- A freshly constructed, empty base queue (retain default). -/
def baseEmptySt : PQState :=
  { table := [], closed := false, removeOnComplete := false,
    nextId := 1, ackCtr := 0 }

def stA : PQState := (Enqueue emptySt Pa 5 1 TxOutcome.ok).2

def stAB : PQState := (Enqueue stA Pb 1 2 TxOutcome.ok).2

def stABC : PQState := (Enqueue stAB Pc 5 3 TxOutcome.ok).2

def rowA : Row :=
  { id := 1, data := Pa, status := Status.pending, ack_id := none,
    ack := false, created_at := 1, updated_at := 1, priority := 5 }

def rowB : Row :=
  { id := 2, data := Pb, status := Status.pending, ack_id := none,
    ack := false, created_at := 2, updated_at := 2, priority := 1 }

def rowC : Row :=
  { id := 3, data := Pc, status := Status.pending, ack_id := none,
    ack := false, created_at := 3, updated_at := 3, priority := 5 }

def stDeqB : PQState := (Dequeue stABC 4 (some rowB) TxOutcome.ok).2

def stDeqBA : PQState := (Dequeue stDeqB 5 (some rowA) TxOutcome.ok).2

/-- A closed queue holding one pending row. -/
def closedSt : PQState :=
  { table := [rowA], closed := true, removeOnComplete := true,
    nextId := 2, ackCtr := 0 }

/-- Two pending rows tied on both `priority` and `created_at`, differing
only in `id` (and payload). -/
def tied1 : Row :=
  { id := 1, data := [1], status := Status.pending, ack_id := none,
    ack := false, created_at := 7, updated_at := 7, priority := 5 }

def tied2 : Row :=
  { id := 2, data := [2], status := Status.pending, ack_id := none,
    ack := false, created_at := 7, updated_at := 7, priority := 5 }

/-- A sample store location for the registry constructor. -/
def samplePath : String :=
  "queue.db"

/-! ### Helper lemmas about the selection order -/

theorem prioLe_refl (r : Row) : prioLe r r = true := by
  simp [prioLe]

theorem prioLe_trans {a b c : Row} (h1 : prioLe a b = true)
    (h2 : prioLe b c = true) : prioLe a c = true := by
  simp only [prioLe, decide_eq_true_eq] at h1 h2 ⊢
  omega

theorem prioLe_total (a b : Row) : prioLe a b = true ∨ prioLe b a = true := by
  simp only [prioLe, decide_eq_true_eq]
  omega

theorem selOk_mem {t : List Row} {r : Row} (h : selOk t (some r) = true) :
    r ∈ t := by
  simp only [selOk, Bool.and_eq_true, decide_eq_true_eq] at h
  exact h.1.1

theorem selOk_pending {t : List Row} {r : Row}
    (h : selOk t (some r) = true) : isPending r = true := by
  simp only [selOk, Bool.and_eq_true, decide_eq_true_eq] at h
  exact h.1.2

theorem selOk_min {t : List Row} {r : Row} (h : selOk t (some r) = true) :
    ∀ s ∈ t, isPending s = true → prioLe r s = true := by
  simp only [selOk, Bool.and_eq_true, decide_eq_true_eq,
    List.all_eq_true, Bool.or_eq_true, Bool.not_eq_true'] at h
  intro s hs hp
  rcases h.2 s hs with h' | h'
  · rw [hp] at h'
    cases h'
  · exact h'

/-- A table that holds a pending row has a pending row minimal under the
(priority ASC, created_at ASC) order. -/
theorem exists_min_pending (t : List Row) (hr : ∃ r ∈ t, isPending r = true) :
    ∃ m ∈ t, isPending m = true ∧
      ∀ s ∈ t, isPending s = true → prioLe m s = true := by
  induction t with
  | nil =>
      obtain ⟨r, hr, _⟩ := hr
      cases hr
  | cons a t ih =>
      by_cases ht : ∃ r ∈ t, isPending r = true
      · obtain ⟨m, hm, hmp, hmin⟩ := ih ht
        by_cases ha : isPending a = true
        · rcases prioLe_total a m with hle | hge
          · refine ⟨a, List.mem_cons_self a t, ha, ?_⟩
            intro s hs hp
            rcases List.mem_cons.mp hs with rfl | hs'
            · exact prioLe_refl s
            · exact prioLe_trans hle (hmin s hs' hp)
          · refine ⟨m, List.mem_cons_of_mem a hm, hmp, ?_⟩
            intro s hs hp
            rcases List.mem_cons.mp hs with rfl | hs'
            · exact hge
            · exact hmin s hs' hp
        · refine ⟨m, List.mem_cons_of_mem a hm, hmp, ?_⟩
          intro s hs hp
          rcases List.mem_cons.mp hs with rfl | hs'
          · exact absurd hp ha
          · exact hmin s hs' hp
      · obtain ⟨r, hrm, hrp⟩ := hr
        rcases List.mem_cons.mp hrm with rfl | hr'
        · refine ⟨r, List.mem_cons_self r t, hrp, ?_⟩
          intro s hs hp
          rcases List.mem_cons.mp hs with rfl | hs'
          · exact prioLe_refl s
          · exact absurd ⟨s, hs', hp⟩ ht
        · exact absurd ⟨r, hr', hrp⟩ ht

/-- A table that holds a pending row admits a valid SELECT result. -/
theorem exists_selOk (t : List Row) (hr : ∃ r ∈ t, isPending r = true) :
    ∃ m : Row, selOk t (some m) = true := by
  obtain ⟨m, hm, hmp, hmin⟩ := exists_min_pending t hr
  refine ⟨m, ?_⟩
  simp only [selOk, Bool.and_eq_true, decide_eq_true_eq,
    List.all_eq_true, Bool.or_eq_true, Bool.not_eq_true']
  refine ⟨⟨hm, hmp⟩, ?_⟩
  intro s hs
  by_cases hp : isPending s = true
  · exact Or.inr (hmin s hs hp)
  · exact Or.inl (Bool.not_eq_true _ ▸ hp)


/-! ### Claim theorems -/

/-- C7: after `Close()` has marked the queue closed (`closed = true`),
`Enqueue` returns `false`, `Dequeue` and `DequeueWithAckId` return
not-found with nil payload and empty ack id, and the state — in
particular the table — is left untouched (the guards return before any
transaction is begun, so the table is neither read nor mutated). -/
theorem C7_closed_noop (st : PQState) (item : List Nat) (p : Int)
    (now : Nat) (txo : TxOutcome) (sel : Option Row)
    (h : st.closed = true) :
    Enqueue st item p now txo = (false, st) ∧
    Dequeue st now sel txo = ((none, false), st) ∧
    DequeueWithAckId st now sel txo = ((none, false, none), st) := by
  simp [Enqueue, Dequeue, DequeueWithAckId, dequeueInternal, h]

/-- Witness for C7 at a concrete closed queue holding one pending row. -/
theorem C7_closed_noop_witness :
    closedSt.closed = true ∧
    (Enqueue closedSt Pb 1 7 TxOutcome.ok = (false, closedSt) ∧
      Dequeue closedSt 7 (some rowA) TxOutcome.ok = ((none, false), closedSt) ∧
      DequeueWithAckId closedSt 7 (some rowA) TxOutcome.ok =
        ((none, false, none), closedSt)) :=
  ⟨by decide, C7_closed_noop closedSt Pb 1 7 TxOutcome.ok (some rowA) (by decide)⟩

/-- C4: a failing transaction step (Begin, Exec or Commit) makes the
operation report failure and leaves the state untouched; moreover every
`false`/not-found return of `Enqueue` or `dequeueInternal` leaves the
state untouched (atomicity on failure). -/
theorem C4_tx_failure_atomic (st : PQState) (item : List Nat) (p : Int)
    (now : Nat) (txo : TxOutcome) (w : Bool) (sel : Option Row) :
    (txo ≠ TxOutcome.ok →
      Enqueue st item p now txo = (false, st) ∧
      dequeueInternal st w now sel txo = ((none, false, none), st)) ∧
    ((Enqueue st item p now txo).1 = false →
      (Enqueue st item p now txo).2 = st) ∧
    ((dequeueInternal st w now sel txo).1.2.1 = false →
      (dequeueInternal st w now sel txo).2 = st) := by
  refine ⟨fun h => ⟨?_, ?_⟩, ?_, ?_⟩ <;>
    cases txo <;> cases sel <;> cases w <;>
      by_cases hc : st.closed = true <;>
        simp_all [Enqueue, dequeueInternal]

/-- Witness for C4 at a concrete pending state and a commit failure. -/
theorem C4_tx_failure_atomic_witness :
    TxOutcome.commitFail ≠ TxOutcome.ok ∧
    (Enqueue stABC Pa 0 9 TxOutcome.commitFail = (false, stABC) ∧
      dequeueInternal stABC true 9 (some rowB) TxOutcome.commitFail =
        ((none, false, none), stABC)) :=
  ⟨by decide,
    (C4_tx_failure_atomic stABC Pa 0 9 TxOutcome.commitFail true
      (some rowB)).1 (by decide)⟩

/-- C3: on an open queue, plain `Dequeue` with a valid selected pending
row deletes exactly that row inside its transaction and returns the row's
payload with `found = true`; with no pending row (`sql.ErrNoRows`) it
returns `(nil, false)` and leaves the table unchanged, and on a closed
queue likewise. -/
theorem C3_dequeue_deletes (st : PQState) (r : Row) (now : Nat)
    (sel : Option Row) (txo : TxOutcome) :
    (st.closed = false → selOk st.table (some r) = true →
      (Dequeue st now (some r) TxOutcome.ok).1 = (some r.data, true) ∧
      (∀ s ∈ (Dequeue st now (some r) TxOutcome.ok).2.table,
        s ∈ st.table ∧ s.id ≠ r.id) ∧
      (∀ s ∈ st.table, s.id ≠ r.id →
        s ∈ (Dequeue st now (some r) TxOutcome.ok).2.table)) ∧
    (st.closed = false → selOk st.table none = true →
      Dequeue st now none txo = ((none, false), st)) ∧
    (st.closed = true → Dequeue st now sel txo = ((none, false), st)) := by
  refine ⟨fun hc _ => ?_, fun hc _ => ?_, fun hc => ?_⟩
  · refine ⟨by simp [Dequeue, dequeueInternal, hc], ?_, ?_⟩
    · intro s hs
      simp only [Dequeue, dequeueInternal, hc] at hs
      simp only [Bool.false_eq_true, if_false, reduceCtorEq, if_neg,
        List.mem_filter, decide_eq_true_eq] at hs
      simpa using hs
    · intro s hs hne
      simp only [Dequeue, dequeueInternal, hc]
      simp [List.mem_filter, hs, hne]
  · cases txo <;> simp [Dequeue, dequeueInternal, hc]
  · cases txo <;> simp [Dequeue, dequeueInternal, hc]

/-- Witness for C3 at the three-row sample state, deleting `rowB`, plus
the empty-table and closed-queue branches at concrete states. -/
theorem C3_dequeue_deletes_witness :
    ((Dequeue stABC 4 (some rowB) TxOutcome.ok).1 = (some rowB.data, true) ∧
      (∀ s ∈ (Dequeue stABC 4 (some rowB) TxOutcome.ok).2.table,
        s ∈ stABC.table ∧ s.id ≠ rowB.id) ∧
      (∀ s ∈ stABC.table, s.id ≠ rowB.id →
        s ∈ (Dequeue stABC 4 (some rowB) TxOutcome.ok).2.table)) ∧
    Dequeue emptySt 4 none TxOutcome.ok = ((none, false), emptySt) ∧
    Dequeue closedSt 4 (some rowA) TxOutcome.ok = ((none, false), closedSt) :=
  ⟨(C3_dequeue_deletes stABC rowB 4 (some rowB) TxOutcome.ok).1
      (by decide) (by decide),
    (C3_dequeue_deletes emptySt rowA 4 none TxOutcome.ok).2.1
      (by decide) (by decide),
    (C3_dequeue_deletes closedSt rowA 4 (some rowA) TxOutcome.ok).2.2
      (by decide)⟩

/-- C2: on an open queue whose table holds a pending row, a valid SELECT
result exists, and running `DequeueWithAckId` on any valid selected row
returns `found = true`, the row's payload, and a non-empty (`some`) ack
id fresh with respect to every ack id already in the table; the row is
not deleted but updated in the same transaction to `status = processing`
carrying that ack id, so the table keeps its length and still records the
item. -/
theorem C2_ack_dequeue (st : PQState) (r : Row) (now : Nat)
    (hc : st.closed = false)
    (hp : ∃ s ∈ st.table, s.status = Status.pending)
    (hf : ∀ s ∈ st.table, ∀ a, s.ack_id = some a → a < st.ackCtr) :
    (∃ m : Row, selOk st.table (some m) = true) ∧
    (selOk st.table (some r) = true →
      (DequeueWithAckId st now (some r) TxOutcome.ok).1.2.1 = true ∧
      (DequeueWithAckId st now (some r) TxOutcome.ok).1.1 = some r.data ∧
      (DequeueWithAckId st now (some r) TxOutcome.ok).1.2.2 = some st.ackCtr ∧
      (∀ s ∈ st.table, s.ack_id ≠ some st.ackCtr) ∧
      (∃ s ∈ (DequeueWithAckId st now (some r) TxOutcome.ok).2.table,
        s.id = r.id ∧ s.status = Status.processing ∧
          s.ack_id = some st.ackCtr ∧ s.data = r.data) ∧
      (DequeueWithAckId st now (some r) TxOutcome.ok).2.table.length =
        st.table.length) := by
  constructor
  · obtain ⟨s, hs, hsp⟩ := hp
    exact exists_selOk st.table ⟨s, hs, by simp [isPending, hsp]⟩
  · intro hsel
    have hmem : r ∈ st.table := selOk_mem hsel
    refine ⟨?_, ?_, ?_, ?_, ?_, ?_⟩
    · simp [DequeueWithAckId, dequeueInternal, hc]
    · simp [DequeueWithAckId, dequeueInternal, hc]
    · simp [DequeueWithAckId, dequeueInternal, hc]
    · intro s hs hcontra
      exact absurd rfl (Nat.ne_of_lt (hf s hs st.ackCtr hcontra))
    · have hred : (DequeueWithAckId st now (some r) TxOutcome.ok).2.table
          = st.table.map (fun s =>
              if s.id = r.id then
                { s with
                  status := Status.processing
                  ack_id := some st.ackCtr
                  updated_at := now }
              else s) := by
        simp [DequeueWithAckId, dequeueInternal, hc]
      rw [hred]
      refine ⟨_, List.mem_map_of_mem _ hmem, ?_⟩
      simp
    · simp [DequeueWithAckId, dequeueInternal, hc]

/-- Witness for C2 at the three-row sample state, selecting `rowB`. -/
theorem C2_ack_dequeue_witness :
    (∃ m : Row, selOk stABC.table (some m) = true) ∧
    ((DequeueWithAckId stABC 4 (some rowB) TxOutcome.ok).1.2.1 = true ∧
      (DequeueWithAckId stABC 4 (some rowB) TxOutcome.ok).1.1 = some rowB.data ∧
      (DequeueWithAckId stABC 4 (some rowB) TxOutcome.ok).1.2.2 =
        some stABC.ackCtr ∧
      (∀ s ∈ stABC.table, s.ack_id ≠ some stABC.ackCtr) ∧
      (∃ s ∈ (DequeueWithAckId stABC 4 (some rowB) TxOutcome.ok).2.table,
        s.id = rowB.id ∧ s.status = Status.processing ∧
          s.ack_id = some stABC.ackCtr ∧ s.data = rowB.data) ∧
      (DequeueWithAckId stABC 4 (some rowB) TxOutcome.ok).2.table.length =
        stABC.table.length) := by
  have h := C2_ack_dequeue stABC rowB 4 (by decide)
    ⟨rowB, by decide, by decide⟩ (by decide)
  exact ⟨h.1, h.2 (by decide)⟩

/-- C1: any row a dequeue's SELECT may return has the lowest numeric
priority among pending rows, with ties broken by `created_at` ascending;
and in the concrete scenario — `P_a` at priority 5, then `P_b` at
priority 1, then `P_c` at priority 5 — the only valid selections for
three successive dequeues are `P_b`'s, `P_a`'s and `P_c`'s rows, whose
payloads are returned in that order. -/
theorem C1_priority_ordering :
    (∀ (t : List Row) (r : Row), selOk t (some r) = true →
      r ∈ t ∧ r.status = Status.pending ∧
      ∀ s ∈ t, s.status = Status.pending →
        r.priority < s.priority ∨
          (r.priority = s.priority ∧ r.created_at ≤ s.created_at)) ∧
    (∀ s1 : Option Row, selOk stABC.table s1 = true → s1 = some rowB) ∧
    (Dequeue stABC 4 (some rowB) TxOutcome.ok).1 = (some Pb, true) ∧
    (∀ s2 : Option Row, selOk stDeqB.table s2 = true → s2 = some rowA) ∧
    (Dequeue stDeqB 5 (some rowA) TxOutcome.ok).1 = (some Pa, true) ∧
    (∀ s3 : Option Row, selOk stDeqBA.table s3 = true → s3 = some rowC) ∧
    (Dequeue stDeqBA 6 (some rowC) TxOutcome.ok).1 = (some Pc, true) := by
  refine ⟨?_, ?_, by decide, ?_, by decide, ?_, by decide⟩
  · intro t r h
    refine ⟨selOk_mem h, ?_, ?_⟩
    · have := selOk_pending h
      simpa [isPending] using this
    · intro s hs hsp
      have := selOk_min h s hs (by simp [isPending, hsp])
      simpa [prioLe] using this
  · intro s1 h
    have ht : stABC.table = [rowA, rowB, rowC] := by decide
    rw [ht] at h
    match s1 with
    | none => exact absurd h (by decide)
    | some r =>
        have hm := selOk_mem h
        rcases List.mem_cons.mp hm with rfl | hm
        · exact absurd h (by decide)
        rcases List.mem_cons.mp hm with rfl | hm
        · rfl
        rcases List.mem_cons.mp hm with rfl | hm
        · exact absurd h (by decide)
        · cases hm
  · intro s2 h
    have ht : stDeqB.table = [rowA, rowC] := by decide
    rw [ht] at h
    match s2 with
    | none => exact absurd h (by decide)
    | some r =>
        have hm := selOk_mem h
        rcases List.mem_cons.mp hm with rfl | hm
        · rfl
        rcases List.mem_cons.mp hm with rfl | hm
        · exact absurd h (by decide)
        · cases hm
  · intro s3 h
    have ht : stDeqBA.table = [rowC] := by decide
    rw [ht] at h
    match s3 with
    | none => exact absurd h (by decide)
    | some r =>
        have hm := selOk_mem h
        rcases List.mem_cons.mp hm with rfl | hm
        · rfl
        · cases hm

/-- Witness for C1: the general selection rule applied at the sample
state, and the forced selections instantiated at their concrete rows. -/
theorem C1_priority_ordering_witness :
    (rowB ∈ stABC.table ∧ rowB.status = Status.pending ∧
      ∀ s ∈ stABC.table, s.status = Status.pending →
        rowB.priority < s.priority ∨
          (rowB.priority = s.priority ∧ rowB.created_at ≤ s.created_at)) ∧
    (some rowB : Option Row) = some rowB ∧
    (some rowA : Option Row) = some rowA ∧
    (some rowC : Option Row) = some rowC :=
  ⟨C1_priority_ordering.1 stABC.table rowB (by decide),
    C1_priority_ordering.2.1 (some rowB) (by decide),
    C1_priority_ordering.2.2.2.1 (some rowA) (by decide),
    C1_priority_ordering.2.2.2.2.2.1 (some rowC) (by decide)⟩

/-- Appending a non-processing row with NULL `ack_id` preserves `ackInv`. -/
theorem ackInv_append (t : List Row) (r : Row) (h : ackInv t = true)
    (hr : r.status ≠ Status.processing) (ha : r.ack_id = none) :
    ackInv (t ++ [r]) = true := by
  simp only [ackInv, List.all_eq_true] at *
  intro s hs
  rcases List.mem_append.mp hs with hs | hs
  · exact h s hs
  · rcases List.mem_singleton.mp hs with rfl
    simp [hr, ha]

/-- Filtering rows out of a table preserves `ackInv`. -/
theorem ackInv_filter (t : List Row) (p : Row → Bool)
    (h : ackInv t = true) : ackInv (t.filter p) = true := by
  simp only [ackInv, List.all_eq_true] at *
  intro s hs
  exact h s (List.mem_of_mem_filter hs)

/-- The ack-path update (status to processing together with a non-NULL
ack id) preserves `ackInv`. -/
theorem ackInv_update (t : List Row) (i a now : Nat)
    (h : ackInv t = true) :
    ackInv (t.map (fun s =>
      if s.id = i then
        { s with
          status := Status.processing
          ack_id := some a
          updated_at := now }
      else s)) = true := by
  simp only [ackInv, List.all_eq_true] at *
  intro s hs
  rcases List.mem_map.mp hs with ⟨u, hu, rfl⟩
  by_cases hid : u.id = i
  · simp [hid]
  · simpa [hid] using h u hu

/-- C10: the invariant "a row has `status = 'processing'` iff its
`ack_id` is non-NULL" is preserved by `Enqueue` (inserts pending with
NULL `ack_id`), by `DequeueWithAckId`/`dequeueInternal true` (one update
setting both the processing status and a non-NULL ack id), and by plain
`Dequeue`/`dequeueInternal false` (pure deletion). -/
theorem C10_processing_iff_ack (st : PQState) (item : List Nat) (p : Int)
    (now : Nat) (txo : TxOutcome) (w : Bool) (sel : Option Row)
    (h : ackInv st.table = true) :
    ackInv (Enqueue st item p now txo).2.table = true ∧
    ackInv (dequeueInternal st w now sel txo).2.table = true := by
  constructor
  · by_cases hc : st.closed = true
    · simpa [Enqueue, hc] using h
    · cases txo with
      | ok =>
          have hred : (Enqueue st item p now TxOutcome.ok).2.table
              = st.table ++
                [{ id := st.nextId, data := item, status := Status.pending,
                   ack_id := none, ack := false, created_at := now,
                   updated_at := now, priority := p }] := by
            simp [Enqueue, hc]
          rw [hred]
          exact ackInv_append _ _ h (by simp) rfl
      | beginFail => simpa [Enqueue, hc] using h
      | execFail => simpa [Enqueue, hc] using h
      | commitFail => simpa [Enqueue, hc] using h
  · by_cases hc : st.closed = true
    · simpa [dequeueInternal, hc] using h
    · rcases sel with _ | r
      · cases txo <;> simpa [dequeueInternal, hc] using h
      · cases txo with
        | ok =>
            cases w with
            | false =>
                have hred :
                    (dequeueInternal st false now (some r) TxOutcome.ok).2.table
                      = st.table.filter (fun s => s.id ≠ r.id) := by
                  simp [dequeueInternal, hc]
                rw [hred]
                exact ackInv_filter _ _ h
            | true =>
                have hred :
                    (dequeueInternal st true now (some r) TxOutcome.ok).2.table
                      = st.table.map (fun s =>
                          if s.id = r.id then
                            { s with
                              status := Status.processing
                              ack_id := some st.ackCtr
                              updated_at := now }
                          else s) := by
                  simp [dequeueInternal, hc]
                rw [hred]
                exact ackInv_update _ _ _ _ h
        | beginFail => simpa [dequeueInternal, hc] using h
        | execFail => simpa [dequeueInternal, hc] using h
        | commitFail => simpa [dequeueInternal, hc] using h

/-- Witness for C10 at the three-row sample state. -/
theorem C10_processing_iff_ack_witness :
    ackInv stABC.table = true ∧
    ackInv (Enqueue stABC Pa 0 9 TxOutcome.ok).2.table = true ∧
    ackInv (dequeueInternal stABC true 9 (some rowB) TxOutcome.ok).2.table
      = true := by
  have h := C10_processing_iff_ack stABC Pa 0 9 TxOutcome.ok true
    (some rowB) (by decide)
  exact ⟨by decide, h.1, h.2⟩

/-- C8 counterexample: `tied1` and `tied2` are pending rows tied on both
`priority` and `created_at`; the dequeue query (`ORDER BY priority ASC,
created_at ASC LIMIT 1`, no `id` key) admits selecting `tied2`, whose
`id` is not the smallest among the tied rows — so selection does not
resolve ties by `id` ascending. -/
theorem C8_counterexample :
    selOk [tied1, tied2] (some tied2) = true ∧
    tied1 ∈ [tied1, tied2] ∧
    tied1.status = Status.pending ∧
    tied1.priority = tied2.priority ∧
    tied1.created_at = tied2.created_at ∧
    ¬ tied2.id ≤ tied1.id := by
  decide

/-- C8 amended: the priority-variant selection is deterministic only up
to (priority, created_at): any pending row tied with a valid selection on
both keys is itself a valid selection, so ties are not resolved by `id`
(or anything else). -/
theorem C8_amended_tie_nondeterminism (t : List Row) (r s : Row)
    (hr : selOk t (some r) = true) (hs : s ∈ t)
    (hp : s.status = Status.pending)
    (hprio : s.priority = r.priority) (hca : s.created_at = r.created_at) :
    selOk t (some s) = true := by
  have hpend : isPending s = true := by simp [isPending, hp]
  have hmin := selOk_min hr
  simp only [selOk, Bool.and_eq_true, decide_eq_true_eq,
    List.all_eq_true, Bool.or_eq_true, Bool.not_eq_true']
  refine ⟨⟨hs, hpend⟩, ?_⟩
  intro u hu
  by_cases hup : isPending u = true
  · refine Or.inr ?_
    have := hmin u hu hup
    simp only [prioLe, decide_eq_true_eq] at this ⊢
    rw [hprio, hca]
    exact this
  · exact Or.inl (Bool.not_eq_true _ ▸ hup)

/-- Witness for C8's amended theorem: `tied1` is a valid selection, and
the theorem transports validity to the tied row `tied2`. -/
theorem C8_amended_tie_nondeterminism_witness :
    selOk [tied1, tied2] (some tied1) = true ∧
    tied2 ∈ [tied1, tied2] ∧
    tied2.status = Status.pending ∧
    tied2.priority = tied1.priority ∧
    tied2.created_at = tied1.created_at ∧
    selOk [tied1, tied2] (some tied2) = true :=
  ⟨by decide, by decide, by decide, by decide, by decide,
    C8_amended_tie_nondeterminism [tied1, tied2] tied1 tied2
      (by decide) (by decide) (by decide) (by decide) (by decide)⟩

/-- C5 counterexample: when `sql.Open` fails, `New` panics (aborts the
process) instead of returning the failure to the caller. -/
theorem C5_counterexample :
    New samplePath true = ConstructResult.panicked ∧
    New samplePath true ≠ ConstructResult.errReturned := by
  decide

/-- C5 amended: `newPriorityQueue` surfaces a table-creation failure as
an error returned to the caller and never panics, for either value of the
failure flag; but `New` panics when opening the store fails. -/
theorem C5_amended_construction_errors (persisted : List Row)
    (seq0 ackCtr0 : Nat) (opts : List QueueOption) (now : Nat)
    (path : String) :
    newPriorityQueue persisted seq0 ackCtr0 true opts now
      = ConstructResult.errReturned ∧
    newPriorityQueue persisted seq0 ackCtr0 true opts now
      ≠ ConstructResult.panicked ∧
    newPriorityQueue persisted seq0 ackCtr0 false opts now
      ≠ ConstructResult.panicked ∧
    New path true = ConstructResult.panicked := by
  refine ⟨rfl, by simp [newPriorityQueue], ?_, rfl⟩
  simp [newPriorityQueue]

/-- C6: with no options, `newPriorityQueue` defaults `removeOnComplete`
to `true` (delete on completion) while the base `newQueue` (spec-modelled)
defaults to retain (`removeOnComplete = false`); the retain-on-completion
option overrides either default. -/
theorem C6_completion_defaults (persisted : List Row)
    (seq0 ackCtr0 : Nat) (now : Nat) (q1 q2 q3 q4 : PQState) :
    (newPriorityQueue persisted seq0 ackCtr0 false [] now
        = ConstructResult.ok q1 → q1.removeOnComplete = true) ∧
    (newQueue persisted seq0 ackCtr0 false [] now
        = ConstructResult.ok q2 → q2.removeOnComplete = false) ∧
    (newPriorityQueue persisted seq0 ackCtr0 false
          [withRetainOnCompletion true] now
        = ConstructResult.ok q3 → q3.removeOnComplete = false) ∧
    (newQueue persisted seq0 ackCtr0 false
          [withRetainOnCompletion false] now
        = ConstructResult.ok q4 → q4.removeOnComplete = true) := by
  refine ⟨?_, ?_, ?_, ?_⟩ <;>
    · intro h
      simp only [newPriorityQueue, newQueue, List.foldl,
        withRetainOnCompletion, if_neg, Bool.false_eq_true,
        reduceCtorEq, reduceIte, ConstructResult.ok.injEq] at h
      subst h
      rfl

/-- Witness for C6 at empty persisted tables. -/
theorem C6_completion_defaults_witness :
    newPriorityQueue [] 1 0 false [] 0 = ConstructResult.ok emptySt ∧
    emptySt.removeOnComplete = true ∧
    newQueue [] 1 0 false [] 0 = ConstructResult.ok baseEmptySt ∧
    baseEmptySt.removeOnComplete = false ∧
    newPriorityQueue [] 1 0 false [withRetainOnCompletion true] 0
      = ConstructResult.ok baseEmptySt ∧
    baseEmptySt.removeOnComplete = false ∧
    newQueue [] 1 0 false [withRetainOnCompletion false] 0
      = ConstructResult.ok emptySt ∧
    emptySt.removeOnComplete = true :=
  ⟨by decide,
    (C6_completion_defaults [] 1 0 0 emptySt baseEmptySt baseEmptySt
      emptySt).1 (by decide),
    by decide,
    (C6_completion_defaults [] 1 0 0 emptySt baseEmptySt baseEmptySt
      emptySt).2.1 (by decide),
    by decide,
    (C6_completion_defaults [] 1 0 0 emptySt baseEmptySt baseEmptySt
      emptySt).2.2.1 (by decide),
    by decide,
    (C6_completion_defaults [] 1 0 0 emptySt baseEmptySt baseEmptySt
      emptySt).2.2.2 (by decide)⟩
